import Mathlib

/-!
Verification of the price-resolution and campaign-generation logic of
`agrobrand_app.py` (AgroBrand Fusion AI).

The Python source is shallowly embedded below:
* `fetch_market_price` (source lines 95-145) over an already-loaded price
  table: the table is passed as `Option (List PriceRecord)` where `none`
  models a failed/malformed load (`load_world_bank_data` returning `None`)
  and dates are `Option Nat` (`none` models a `NaT` produced by
  `pd.to_datetime` on a null cell, which survives the load because
  `dropna` is only applied to Price / Product_Name / Market_Name).
* the label-selection loop of `identify_product_via_web` (lines 61-67);
* `generate_campaign_content` (lines 147-162), whose body text references
  `product_name` / `condition` that are only bound inside the
  `if product_info and product_info.get('product')` guard, so the call
  raises `NameError` outside that guard; this is modeled with `Except`.

Python string operations are modeled over the `List Char` view of `String`:
`str.lower` as an ASCII lowercase map, `in` / `str.contains(..., case=False)`
as (case-insensitive) substring tests.  Prices are `ℚ` (they are numeric
after `pd.to_numeric` + `dropna` at load time); observation dates are day
stamps encoded as `Nat` (e.g. `20250510`).
-/

/-- Model of Python `str.lower` on one character (ASCII range, which covers
every string occurring in the program's tables and maps). -/
def pyCharLower (c : Char) : Char :=
  if 65 ≤ c.toNat ∧ c.toNat ≤ 90 then Char.ofNat (c.toNat + 32) else c

/-- Model of Python `str.lower`. -/
def pyLower (s : String) : String :=
  ⟨s.data.map pyCharLower⟩

/-- Substring test on character lists: Python's `needle in hay`. -/
def charListContains (hay needle : List Char) : Bool :=
  hay.tails.any fun t => needle.isPrefixOf t

/-- Python `needle in hay` on strings (case-sensitive). -/
def strContains (hay needle : String) : Bool :=
  charListContains hay.data needle.data

/-- Case-insensitive substring test: models
`Series.str.contains(needle, case=False)` applied to one cell (the pattern
strings of the program contain regex metacharacters only inside parentheses
groups that never match in the claims considered; the spec itself reads the
operation as a case-insensitive substring test). -/
def strContainsCI (hay needle : String) : Bool :=
  charListContains (pyLower hay).data (pyLower needle).data

/-- One row of the loaded World-Bank price table (after
`load_world_bank_data`: columns renamed, `Price` numeric, rows with null
price/product/market dropped; a null `Date` cell survives as `none`). -/
structure PriceRecord where
  productName : String
  marketName : String
  unit : String
  price : ℚ
  date : Option Nat
deriving Repr, DecidableEq

/-- The `PRODUCT_NAME_SYNONYM_MAP` dict from the source, lines 29-37.
`none` is the explicit "too generic" marker (`"fruit": None`). -/
def PRODUCT_NAME_SYNONYM_MAP : List (String × Option String) :=
  [("bell pepper", some "Pepper, Bell"), ("tomato", some "Tomatoes"),
   ("tomatoes", some "Tomatoes"),
   ("catfish", some "Fish, Catfish (fresh)"), ("yam tuber", some "Yam"),
   ("yam", some "Yam"),
   ("orange", some "Oranges, Sweet"), ("maize", some "Maize (white)"),
   ("corn", some "Maize (white)"),
   ("onion", some "Onions"), ("fruit", none), ("vegetable", none),
   ("plantain", some "Plantain (ripe / unripe)"),
   ("beans", some "Beans (brown, dry / white, dry / green)"),
   ("rice", some "Rice (local sold loose / imported)")]

/-- Python `PRODUCT_NAME_SYNONYM_MAP.get(key)`: a missing key and a key
stored with value `None` both come back as `none` (Python's `dict.get`
cannot tell them apart). -/
def synGet (key : String) : Option String :=
  match PRODUCT_NAME_SYNONYM_MAP.lookup key with
  | none => none
  | some v => v

/-- How the selected market relates to the preferred-market list
(the source encodes this in the `market_source_info` string, lines 134-137). -/
inductive MarketRole where
  | primary
  | fallbackM
  | generalFallback
deriving Repr, DecidableEq

/-- Status of a lookup, one per distinct `return` of `fetch_market_price`
(the source encodes it in the `location` string of the returned dict). -/
inductive LookupStatus where
  | found
  | productNotFound
  | tooGeneric
  | dataUnavailable
  | marketNotFound
  | error
deriving Repr, DecidableEq

/-- The dict returned by `fetch_market_price`, with the price kept as the
selected row's numeric value (the source formats it as `"₦{price:,.2f}"`)
and the `trend` string represented by the date it reports. -/
structure LookupRes where
  status : LookupStatus
  price : Option ℚ
  unit : String
  market : Option (String × MarketRole)
  date : Option Nat
  trendDate : Option Nat
deriving Repr, DecidableEq

/-- Source line 99: `{"price": "N/A", ..., "location": "WB Data Unavailable"}`. -/
def dataUnavailableRes : LookupRes :=
  ⟨.dataUnavailable, none, "", none, none, none⟩

/-- Source line 116: `{"price": "N/A", ..., "location": "Product Too Generic"}`. -/
def tooGenericRes : LookupRes :=
  ⟨.tooGeneric, none, "", none, none, none⟩

/-- Source line 124: `{"price": "N/A", ..., "location": "Product Not Found in WB Data"}`. -/
def productNotFoundRes : LookupRes :=
  ⟨.productNotFound, none, "", none, none, none⟩

/-- Source line 145: `{"price": "Error", ..., "location": "Lookup Failed"}`. -/
def lookupErrorRes : LookupRes :=
  ⟨.error, none, "", none, none, none⟩

/-- Source line 144: `{"price": "N/A", ..., "location": "Market Not Found for Date"}`. -/
def marketNotFoundRes (d : Nat) : LookupRes :=
  ⟨.marketNotFound, none, "", none, some d, none⟩

/-- Source line 143: the successful return, carrying the selected row's
price, unit, market (with its role tag) and the latest date. -/
def foundRes (row : PriceRecord) (role : MarketRole) (d : Nat) : LookupRes :=
  ⟨.found, some row.price, row.unit, some (row.marketName, role), some d, some d⟩

/-- Source lines 102-116: exact match on the lowered label, then the
synonym step.  `none` models the early `return` of the "Product Too
Generic" dict (line 116, taken when `dict.get` yields `None` — for an
unmapped key as well as for an explicit `None` value); the degenerate
`name = ""` case mirrors Python's falsy empty string, for which neither
the `if mapped_name:` nor the `elif mapped_name is None:` branch fires. -/
def synonymPhase (label : String) (df : List PriceRecord) :
    Option (List PriceRecord) :=
  if (df.filter fun r => pyLower r.productName == pyLower label).isEmpty then
    match synGet (pyLower label) with
    | some name =>
      if name = "" then some (df.filter fun r => pyLower r.productName == pyLower label)
      else if (df.filter fun r => pyLower r.productName == pyLower name).isEmpty then
        some (df.filter fun r => strContainsCI r.productName name)
      else some (df.filter fun r => pyLower r.productName == pyLower name)
    | none => none
  else some (df.filter fun r => pyLower r.productName == pyLower label)

/-- Source lines 100-121: the full pipeline that builds `product_df`,
including the broad substring fallback of lines 117-121 (run only when
everything so far is empty and `PRODUCT_NAME_SYNONYM_MAP.get(label.lower())
is not None`, using the original-case label with `case=False`). -/
def matchedRows (label : String) (df : List PriceRecord) :
    Option (List PriceRecord) :=
  match synonymPhase label df with
  | none => none
  | some ps =>
    if ps.isEmpty && (synGet (pyLower label)).isSome then
      some (df.filter fun r => strContainsCI r.productName label)
    else some ps

/-- Source line 126: `product_df['Date'].max()` — pandas skips `NaT`
values and yields `NaT` (here `none`) only when no valid date exists. -/
def dateMax (ds : List (Option Nat)) : Option Nat :=
  (ds.filterMap id).max?

/-- Source lines 128-136: walk `market_priority` in order and take
`iloc[0]` of the first non-empty case-insensitive market filter. -/
def selectPreferred (ps : List PriceRecord) :
    List String → Option (PriceRecord × String)
  | [] => none
  | m :: rest =>
    match ps.filter (fun r => strContainsCI r.marketName m) with
    | row :: _ => some (row, m)
    | [] => selectPreferred ps rest

/-- Source line 128: `market_priority = ["Akure", "Ibadan", "Lagos"]`. -/
def marketPriority : List String := ["Akure", "Ibadan", "Lagos"]

/-- Source lines 128-137: market-priority selection within the latest
slice, including the `iloc[0]` general fallback of line 137. -/
def selectByMarket (ps : List PriceRecord) :
    Option (PriceRecord × MarketRole) :=
  match selectPreferred ps marketPriority with
  | some (row, m) =>
    some (row, if m = "Akure" then MarketRole.primary else MarketRole.fallbackM)
  | none =>
    match ps with
    | [] => none
    | row :: _ => some (row, MarketRole.generalFallback)

/-- The latest-date slice of a set of matched rows (source line 127). -/
def latestSlice (ps : List PriceRecord) : List PriceRecord :=
  match dateMax (ps.map fun r => r.date) with
  | none => []
  | some d => ps.filter fun r => r.date == some d

/-- Source lines 101-145, the body of the `try:` block.  `Except.error`
models an exception escaping the body — concretely, `strftime` on line 126
raising when `max()` over the matched dates is `NaT`. -/
def lookupBody (label : String) (df : List PriceRecord) :
    Except Unit LookupRes :=
  match matchedRows label df with
  | none => .ok tooGenericRes
  | some ps =>
    if ps.isEmpty then .ok productNotFoundRes
    else
      match dateMax (ps.map fun r => r.date) with
      | none => .error ()
      | some d =>
        match selectByMarket (ps.filter fun r => r.date == some d) with
        | some (row, role) => .ok (foundRes row role d)
        | none => .ok (marketNotFoundRes d)

/-- Source lines 95-145: `fetch_market_price`, over an already-loaded
table (`none` = `load_world_bank_data()` returned `None`). -/
def fetch_market_price (label : String) (df? : Option (List PriceRecord)) :
    LookupRes :=
  match df? with
  | none => dataUnavailableRes
  | some df =>
    if df.isEmpty then dataUnavailableRes
    else
      match lookupBody label df with
      | .ok r => r
      | .error _ => lookupErrorRes

/-- One entry of `response.label_annotations` as used by the selection loop
of `identify_product_via_web`: a description and a confidence score
(a float in the source, embedded as `ℚ`). -/
structure VisionLabel where
  description : String
  score : ℚ
deriving Repr, DecidableEq

/-- Source line 61: the keyword list named `plausible_keywords` there
(renamed here). -/
def plausibilityKeywords : List String :=
  ["fruit", "vegetable", "food", "plant", "crop", "fish", "yam", "plantain",
   "pepper", "tomato", "catfish", "cassava", "maize", "okra", "onion",
   "garlic", "ginger", "cabbage", "lettuce", "mango", "orange", "pineapple",
   "banana", "pawpaw"]

/-- Source line 63: `any(keyword.lower() in label.description.lower() ...)`. -/
def isPlausible (l : VisionLabel) : Bool :=
  plausibilityKeywords.any fun k =>
    charListContains (pyLower l.description).data (pyLower k).data

/-- One iteration of the loop on source lines 62-65: the accumulator is
the `(best_label, highest_score)` pair; a plausible label wins if it beats
the running maximum, and a non-plausible one only while `best_label` is
still `None` (and it also beats the running maximum). -/
def labelStep (acc : Option VisionLabel × ℚ) (l : VisionLabel) :
    Option VisionLabel × ℚ :=
  if isPlausible l = true ∧ acc.2 < l.score then (some l, l.score)
  else if acc.1 = none ∧ acc.2 < l.score then (some l, l.score)
  else acc

/-- Source lines 61-67: the label-selection loop of
`identify_product_via_web`, starting from `best_label = None`,
`highest_score = 0.0`. -/
def select_best_label (labels : List VisionLabel) : Option VisionLabel :=
  (labels.foldl labelStep ((none : Option VisionLabel), (0 : ℚ))).1

/-- The `product_info` dict as far as `generate_campaign_content` reads it:
`product` and an optional `condition` (absent key modeled as `none`). -/
structure ProductInfo where
  product : String
  condition : Option String
deriving Repr, DecidableEq

/-- The `market_data` dict as far as `generate_campaign_content` reads it. -/
structure MarketData where
  location : Option String
  trend : Option String
deriving Repr, DecidableEq

/-- The dict returned by `generate_campaign_content`: exactly the keys
`headline`, `body`, `cta`, `hashtags`. -/
structure CampaignCopy where
  headline : String
  body : String
  cta : String
  hashtags : String
deriving Repr, DecidableEq

/-- A Python exception escaping `generate_campaign_content`: the
`NameError` raised on line 153 when `condition` / `product_name` were
never bound. -/
inductive PyError where
  | nameError
deriving Repr, DecidableEq

/-- Python `" ".join(l)`. -/
def pyJoinSpace : List String → String
  | [] => ""
  | [s] => s
  | s :: rest => s ++ " " ++ pyJoinSpace rest

/-- Truthiness of an optional string field fetched with `.get`: present
and non-empty. -/
def truthy (s? : Option String) : Bool :=
  match s? with
  | none => false
  | some s => !(s = "")

/-- Python `market_data.get('location').split('(')[0].strip()` (line 156). -/
def locationStem (loc : String) : String :=
  ((loc.splitOn "(").headD "").trim

/-- Source lines 151-152: the headline, `"Premium {condition} {product_name}
- Available Now!"` with `" In Akure!"` appended when the location mentions
Akure. -/
def campaignHeadline (pi : ProductInfo) (md : MarketData) : String :=
  if truthy md.location = true ∧ strContains (md.location.getD "") "Akure" = true then
    "Premium " ++ pi.condition.getD "Quality" ++ " " ++ pi.product ++
      " - Available Now!" ++ " In Akure!"
  else
    "Premium " ++ pi.condition.getD "Quality" ++ " " ++ pi.product ++
      " - Available Now!"

/-- Source lines 153-155: the body text, with the optional trend sentence
and the constant closing sentence. -/
def campaignBody (pi : ProductInfo) (md : MarketData) : String :=
  (if truthy md.trend = true ∧ md.trend.getD "" ≠ "N/A" then
    "Looking for top " ++ pyLower (pi.condition.getD "Quality") ++ " " ++
      pi.product ++ "? Look no further! " ++
      "Market trend shows: " ++ md.trend.getD "" ++ ". Secure yours today! "
  else
    "Looking for top " ++ pyLower (pi.condition.getD "Quality") ++ " " ++
      pi.product ++ "? Look no further! ")
  ++ "Ideal for home use or business."

/-- Source lines 155-156: the call to action with the optional pickup
sentence built from the location's text before the first parenthesis. -/
def campaignCta (pi : ProductInfo) (md : MarketData) : String :=
  if truthy md.location = true ∧ md.location.getD "" ≠ "N/A" then
    "Order your " ++ pi.product ++ " now! Call/WhatsApp [Your Phone Number/WhatsApp]." ++
      " Pickup available near " ++ locationStem (md.location.getD "") ++ "."
  else
    "Order your " ++ pi.product ++ " now! Call/WhatsApp [Your Phone Number/WhatsApp]."

/-- Source lines 157-161: the hashtag list plus its conditional
market-specific appends, joined with spaces. -/
def campaignHashtags (pi : ProductInfo) (md : MarketData) : String :=
  pyJoinSpace
    (["#FarmFresh", "#" ++ pi.product.replace " " "", "#Akure", "#OndoState",
      "#NaijaMade", "#Agribusiness", "#SupportLocal"]
     ++ (if truthy md.location = true ∧
           strContains (md.location.getD "") "Shasha" = true then
           ["#ShashaMarket"] else [])
     ++ (if truthy md.location = true ∧
           strContains (md.location.getD "") "Erekesan" = true then
           ["#ErekesanMarket"] else [])
     ++ (if truthy md.location = true ∧
           strContains (md.location.getD "") "Oja Oba" = true then
           ["#OjaOba"] else []))

/-- Source lines 147-162: `generate_campaign_content`.  When
`product_info` is `None` or its `product` field is falsy, the guarded
assignment on line 151 is skipped and line 153 (`body = f"... {condition.lower()}
{product_name} ..."`) raises `NameError`; otherwise the four strings are
assembled exactly as in the source. -/
def generate_campaign_content (productInfo : Option ProductInfo)
    (marketData : MarketData) : Except PyError CampaignCopy :=
  match productInfo with
  | none => .error PyError.nameError
  | some pi =>
    if pi.product = "" then .error PyError.nameError
    else
      .ok { headline := campaignHeadline pi marketData,
            body := campaignBody pi marketData,
            cta := campaignCta pi marketData,
            hashtags := campaignHashtags pi marketData }

/-- Modelled from the spec, section 4.1 step 6, for comparison with
`selectByMarket`: take the first row matching "Akure" (tagged primary),
else the first matching "Ibadan" or "Lagos" (tagged fallback), else the
first row of the slice (general fallback). -/
def selectByMarketSpec (ps : List PriceRecord) :
    Option (PriceRecord × MarketRole) :=
  match ps.filter (fun r => strContainsCI r.marketName "Akure") with
  | row :: _ => some (row, MarketRole.primary)
  | [] =>
    match ps.filter (fun r => strContainsCI r.marketName "Ibadan") with
    | row :: _ => some (row, MarketRole.fallbackM)
    | [] =>
      match ps.filter (fun r => strContainsCI r.marketName "Lagos") with
      | row :: _ => some (row, MarketRole.fallbackM)
      | [] =>
        match ps with
        | [] => none
        | row :: _ => some (row, MarketRole.generalFallback)

/-- Truthiness of `product_info and product_info.get('product')`
(source line 151). -/
def hasTruthyProduct (p : Option ProductInfo) : Bool :=
  match p with
  | none => false
  | some pi => !(pi.product = "")

/-- Scenario row from spec section 8: `{Tomatoes, Shasha Market, kg, 3000, 2025-05-01}`. -/
def rowTomatoesShasha : PriceRecord :=
  ⟨"Tomatoes", "Shasha Market", "kg", 3000, some 20250501⟩

/-- Scenario row from spec section 8: `{Tomatoes, Erekesan Market, kg, 2800, 2025-05-10}`. -/
def rowTomatoesErekesan : PriceRecord :=
  ⟨"Tomatoes", "Erekesan Market", "kg", 2800, some 20250510⟩

/-- Scenario row: a tomato observation in an Akure market. -/
def rowTomatoesAkure : PriceRecord :=
  ⟨"Tomatoes", "Akure Main Market", "kg", 2900, some 20250510⟩

/-- Scenario row: a same-product same-date observation in a Lagos market. -/
def rowTomatoesLagos : PriceRecord :=
  ⟨"Tomatoes", "Lagos Island Market", "kg", 2700, some 20250510⟩

/-- Scenario row: a literal "Fruit" product row. -/
def rowFruit : PriceRecord :=
  ⟨"Fruit", "Akure Main Market", "kg", 500, some 20250501⟩

/-- Scenario row: a product absent from the synonym map, whose name
contains "goat" as a substring. -/
def rowGoatMeat : PriceRecord :=
  ⟨"Goat meat", "Akure Main Market", "kg", 4000, some 20250501⟩

/-- Scenario row: a tomato observation whose date cell failed to parse
(`NaT`). -/
def rowTomatoesNoDate : PriceRecord :=
  ⟨"Tomatoes", "Akure Main Market", "kg", 100, none⟩

/-- Scenario label: high-confidence label matching no plausibility keyword
(confidences here are scaled by ten to stay integral). -/
def carLabel : VisionLabel := ⟨"Car", 9⟩

/-- Scenario label: lower-confidence label matching the keyword "tomato". -/
def tomatoLabel : VisionLabel := ⟨"Tomato", 5⟩

/-! ### Helper lemmas -/

theorem pyCharLower_idem (c : Char) : pyCharLower (pyCharLower c) = pyCharLower c := by
  unfold pyCharLower
  by_cases h : 65 ≤ c.toNat ∧ c.toNat ≤ 90
  · rw [if_pos h]
    rw [if_neg]
    obtain ⟨h1, h2⟩ := h
    generalize c.toNat = n at h1 h2
    interval_cases n <;> decide
  · rw [if_neg h, if_neg h]

theorem map_pyCharLower_idem (l : List Char) :
    (l.map pyCharLower).map pyCharLower = l.map pyCharLower := by
  induction l with
  | nil => rfl
  | cons a t ih => simp only [List.map_cons, ih, pyCharLower_idem]

theorem pyLower_idem (s : String) : pyLower (pyLower s) = pyLower s := by
  unfold pyLower
  exact congrArg String.mk (map_pyCharLower_idem s.data)

theorem isEmpty_false_of_ne_nil {α : Type} {l : List α} (h : l ≠ []) :
    l.isEmpty = false := by
  cases l with
  | nil => exact absurd rfl h
  | cons a t => rfl

theorem str_append_ne_empty_left (a b : String) (h : a ≠ "") : a ++ b ≠ "" := by
  intro he
  apply h
  apply String.ext
  have hd := congrArg String.data he
  rw [String.data_append] at hd
  exact (List.append_eq_nil.mp hd).1

theorem str_append_ne_empty_right (a b : String) (h : b ≠ "") : a ++ b ≠ "" := by
  intro he
  apply h
  apply String.ext
  have hd := congrArg String.data he
  rw [String.data_append] at hd
  exact (List.append_eq_nil.mp hd).2

theorem mem_dateFilter (ps : List PriceRecord) (row : PriceRecord) (d : Nat) :
    row ∈ ps.filter (fun r => r.date == some d) ↔ row ∈ ps ∧ row.date = some d := by
  simp [List.mem_filter]

theorem selectPreferred_mem (ps : List PriceRecord) (ms : List String)
    (row : PriceRecord) (m : String)
    (h : selectPreferred ps ms = some (row, m)) : row ∈ ps := by
  induction ms with
  | nil => simp [selectPreferred] at h
  | cons m' rest ih =>
    unfold selectPreferred at h
    split at h
    · rename_i r t hf
      have hmem : r ∈ ps.filter (fun r => strContainsCI r.marketName m') := by
        rw [hf]; exact List.mem_cons_self _ _
      have : r = row := by
        simp only [Option.some.injEq, Prod.mk.injEq] at h
        exact h.1
      exact this ▸ List.mem_of_mem_filter hmem
    · exact ih h

theorem selectByMarket_mem (ps : List PriceRecord) (row : PriceRecord)
    (role : MarketRole) (h : selectByMarket ps = some (row, role)) : row ∈ ps := by
  unfold selectByMarket at h
  split at h
  · rename_i r m hsel
    simp only [Option.some.injEq, Prod.mk.injEq] at h
    exact h.1 ▸ selectPreferred_mem ps marketPriority r m hsel
  · rename_i hsel
    split at h
    · exact absurd h (by simp)
    · rename_i r t
      simp only [Option.some.injEq, Prod.mk.injEq] at h
      exact h.1 ▸ List.mem_cons_self _ _

theorem selectByMarket_isSome (ps : List PriceRecord) (hne : ps ≠ []) :
    ∃ row role, selectByMarket ps = some (row, role) := by
  unfold selectByMarket
  cases hsel : selectPreferred ps marketPriority with
  | some rm =>
    obtain ⟨r2, m⟩ := rm
    exact ⟨r2, if m = "Akure" then MarketRole.primary else MarketRole.fallbackM, rfl⟩
  | none =>
    cases ps with
    | nil => exact absurd rfl hne
    | cons r t => exact ⟨r, MarketRole.generalFallback, rfl⟩

theorem dateMax_mem (ds : List (Option Nat)) (d : Nat) (h : dateMax ds = some d) :
    some d ∈ ds := by
  unfold dateMax at h
  have hd : d ∈ ds.filterMap id := List.max?_mem (fun a b => max_choice a b) h
  rw [List.mem_filterMap] at hd
  obtain ⟨o, ho, hid⟩ := hd
  have ho' : o = some d := hid
  exact ho' ▸ ho

theorem dateMax_isSome (ds : List (Option Nat)) (x : Nat) (hx : some x ∈ ds) :
    ∃ d, dateMax ds = some d := by
  unfold dateMax
  have hmem : x ∈ ds.filterMap id := List.mem_filterMap.mpr ⟨some x, hx, rfl⟩
  cases hfm : ds.filterMap id with
  | nil => rw [hfm] at hmem; cases hmem
  | cons a t => exact ⟨t.foldl max a, rfl⟩

theorem fetch_ok (label : String) (df : List PriceRecord) (r : LookupRes)
    (hdf : df ≠ []) (h : lookupBody label df = Except.ok r) :
    fetch_market_price label (some df) = r := by
  show (if df.isEmpty = true then dataUnavailableRes
        else match lookupBody label df with
          | Except.ok v => v
          | Except.error _ => lookupErrorRes) = r
  rw [if_neg (by simp [isEmpty_false_of_ne_nil hdf]), h]

theorem matchedRows_exact (label : String) (df : List PriceRecord)
    (h : (df.filter fun r => pyLower r.productName == pyLower label) ≠ []) :
    matchedRows label df =
      some (df.filter fun r => pyLower r.productName == pyLower label) := by
  have he := isEmpty_false_of_ne_nil h
  unfold matchedRows synonymPhase
  rw [he]
  simp [he]

theorem matchedRows_noSyn (label : String) (df : List PriceRecord)
    (hempty : (df.filter fun r => pyLower r.productName == pyLower label) = [])
    (hsyn : synGet (pyLower label) = none) :
    matchedRows label df = none := by
  unfold matchedRows synonymPhase
  rw [hempty, hsyn]
  simp

theorem fetch_tooGeneric_of (label : String) (df : List PriceRecord)
    (hdf : df ≠ [])
    (hempty : (df.filter fun r => pyLower r.productName == pyLower label) = [])
    (hsyn : synGet (pyLower label) = none) :
    fetch_market_price label (some df) = tooGenericRes := by
  apply fetch_ok label df tooGenericRes hdf
  unfold lookupBody
  rw [matchedRows_noSyn label df hempty hsyn]

theorem lookupBody_found_of (label : String) (df ps : List PriceRecord) (d : Nat)
    (hps : matchedRows label df = some ps)
    (hd : dateMax (ps.map fun r => r.date) = some d) :
    ∃ row role, row ∈ ps ∧ row.date = some d ∧
      selectByMarket (ps.filter fun r => r.date == some d) = some (row, role) ∧
      lookupBody label df = Except.ok (foundRes row role d) := by
  have hmem : some d ∈ ps.map fun r => r.date := dateMax_mem _ _ hd
  rw [List.mem_map] at hmem
  obtain ⟨r0, hr0, hr0d⟩ := hmem
  have hslice : (ps.filter fun r => r.date == some d) ≠ [] := by
    intro hnil
    have hin : r0 ∈ ps.filter fun r => r.date == some d :=
      (mem_dateFilter ps r0 d).mpr ⟨hr0, hr0d⟩
    rw [hnil] at hin
    cases hin
  obtain ⟨row, role, hsel⟩ := selectByMarket_isSome _ hslice
  have hrow := selectByMarket_mem _ _ _ hsel
  rw [mem_dateFilter] at hrow
  refine ⟨row, role, hrow.1, hrow.2, hsel, ?_⟩
  have hne : ps ≠ [] := List.ne_nil_of_mem hrow.1
  have step1 : lookupBody label df =
      (match dateMax (ps.map fun r => r.date) with
       | none => Except.error ()
       | some d =>
         match selectByMarket (ps.filter fun r => r.date == some d) with
         | some (v, vr) => Except.ok (foundRes v vr d)
         | none => Except.ok (marketNotFoundRes d)) := by
    have base : lookupBody label df =
        (if ps.isEmpty = true then Except.ok productNotFoundRes
         else match dateMax (ps.map fun r => r.date) with
         | none => Except.error ()
         | some d =>
           match selectByMarket (ps.filter fun r => r.date == some d) with
           | some (v, vr) => Except.ok (foundRes v vr d)
           | none => Except.ok (marketNotFoundRes d)) := by
      unfold lookupBody
      rw [hps]
    rw [base, if_neg (by simp [isEmpty_false_of_ne_nil hne])]
  rw [step1, hd]
  show (match selectByMarket (ps.filter fun r => r.date == some d) with
        | some (v, vr) => Except.ok (foundRes v vr d)
        | none => Except.ok (marketNotFoundRes d)) = Except.ok (foundRes row role d)
  rw [hsel]

theorem fetch_found_inv (label : String) (df : List PriceRecord)
    (h : (fetch_market_price label (some df)).status = LookupStatus.found) :
    ∃ ps row role d, matchedRows label df = some ps ∧ row ∈ ps ∧
      row.date = some d ∧ dateMax (ps.map fun r => r.date) = some d ∧
      fetch_market_price label (some df) = foundRes row role d := by
  by_cases hdf : df.isEmpty = true
  · exfalso
    have : fetch_market_price label (some df) = dataUnavailableRes := by
      show (if df.isEmpty = true then dataUnavailableRes
            else match lookupBody label df with
              | Except.ok v => v
              | Except.error _ => lookupErrorRes) = dataUnavailableRes
      rw [if_pos hdf]
    rw [this] at h
    exact absurd h (by decide)
  · have hdf' : df ≠ [] := by
      intro hnil
      rw [hnil] at hdf
      exact hdf rfl
    cases hlb : lookupBody label df with
    | error e =>
      exfalso
      have : fetch_market_price label (some df) = lookupErrorRes := by
        show (if df.isEmpty = true then dataUnavailableRes
              else match lookupBody label df with
                | Except.ok v => v
                | Except.error _ => lookupErrorRes) = lookupErrorRes
        rw [if_neg hdf, hlb]
      rw [this] at h
      exact absurd h (by decide)
    | ok r =>
      have hfr : fetch_market_price label (some df) = r :=
        fetch_ok label df r hdf' hlb
      rw [hfr] at h ⊢
      unfold lookupBody at hlb
      cases hm : matchedRows label df with
      | none =>
        rw [hm] at hlb
        exfalso
        replace hlb : (Except.ok tooGenericRes : Except Unit LookupRes) = Except.ok r := hlb
        have : r = tooGenericRes := by
          simp only [Except.ok.injEq] at hlb
          exact hlb.symm
        rw [this] at h
        exact absurd h (by decide)
      | some ps =>
        rw [hm] at hlb
        replace hlb :
            (if ps.isEmpty = true then Except.ok productNotFoundRes
             else match dateMax (ps.map fun r => r.date) with
             | none => Except.error ()
             | some d =>
               match selectByMarket (ps.filter fun r => r.date == some d) with
               | some (v, vr) => Except.ok (foundRes v vr d)
               | none => Except.ok (marketNotFoundRes d)) = Except.ok r := hlb
        by_cases hpe : ps.isEmpty = true
        · exfalso
          rw [if_pos hpe] at hlb
          have : r = productNotFoundRes := by
            simp only [Except.ok.injEq] at hlb
            exact hlb.symm
          rw [this] at h
          exact absurd h (by decide)
        · rw [if_neg hpe] at hlb
          cases hd : dateMax (ps.map fun r => r.date) with
          | none =>
            rw [hd] at hlb
            exact absurd hlb (by simp)
          | some d =>
            rw [hd] at hlb
            replace hlb :
                (match selectByMarket (ps.filter fun r => r.date == some d) with
                 | some (v, vr) => Except.ok (foundRes v vr d)
                 | none => (Except.ok (marketNotFoundRes d) : Except Unit LookupRes)) = Except.ok r := hlb
            cases hsel : selectByMarket (ps.filter fun r => r.date == some d) with
            | none =>
              exfalso
              rw [hsel] at hlb
              have : r = marketNotFoundRes d := by
                simp only [Except.ok.injEq] at hlb
                exact hlb.symm
              rw [this] at h
              simp [marketNotFoundRes] at h
            | some rr =>
              obtain ⟨row, role⟩ := rr
              rw [hsel] at hlb
              have hr : r = foundRes row role d := by
                simp only [Except.ok.injEq] at hlb
                exact hlb.symm
              have hrow := selectByMarket_mem _ _ _ hsel
              rw [mem_dateFilter] at hrow
              exact ⟨ps, row, role, d, rfl, hrow.1, hrow.2, hd, hr⟩

theorem lookupBody_ok_status (label : String) (df : List PriceRecord)
    (r : LookupRes) (h : lookupBody label df = Except.ok r) :
    r.status = LookupStatus.tooGeneric ∨ r.status = LookupStatus.productNotFound ∨
    r.status = LookupStatus.found := by
  unfold lookupBody at h
  cases hm : matchedRows label df with
  | none =>
    rw [hm] at h
    replace h : (Except.ok tooGenericRes : Except Unit LookupRes) = Except.ok r := h
    simp only [Except.ok.injEq] at h
    left
    rw [← h]
    rfl
  | some ps =>
    rw [hm] at h
    replace h :
        (if ps.isEmpty = true then Except.ok productNotFoundRes
         else match dateMax (ps.map fun r => r.date) with
         | none => Except.error ()
         | some d =>
           match selectByMarket (ps.filter fun r => r.date == some d) with
           | some (v, vr) => Except.ok (foundRes v vr d)
           | none => Except.ok (marketNotFoundRes d)) = Except.ok r := h
    by_cases hpe : ps.isEmpty = true
    · rw [if_pos hpe] at h
      simp only [Except.ok.injEq] at h
      right; left
      rw [← h]
      rfl
    · rw [if_neg hpe] at h
      cases hd : dateMax (ps.map fun r => r.date) with
      | none =>
        rw [hd] at h
        exact absurd h (by simp)
      | some d =>
        rw [hd] at h
        replace h :
            (match selectByMarket (ps.filter fun r => r.date == some d) with
             | some (v, vr) => Except.ok (foundRes v vr d)
             | none => (Except.ok (marketNotFoundRes d) : Except Unit LookupRes)) = Except.ok r := h
        have hmem : some d ∈ ps.map fun r => r.date := dateMax_mem _ _ hd
        rw [List.mem_map] at hmem
        obtain ⟨r0, hr0, hr0d⟩ := hmem
        have hslice : (ps.filter fun r => r.date == some d) ≠ [] := by
          intro hnil
          have hin : r0 ∈ ps.filter fun r => r.date == some d :=
            (mem_dateFilter ps r0 d).mpr ⟨hr0, hr0d⟩
          rw [hnil] at hin
          cases hin
        obtain ⟨row, role, hsel⟩ := selectByMarket_isSome _ hslice
        rw [hsel] at h
        simp only [Except.ok.injEq] at h
        right; right
        rw [← h]
        rfl

theorem labelStep_start (l : VisionLabel) (hpos : 0 < l.score) :
    labelStep ((none : Option VisionLabel), (0 : ℚ)) l = (some l, l.score) := by
  by_cases hp : isPlausible l = true
  · simp [labelStep, hp, hpos]
  · simp [labelStep, hp, hpos]

theorem labelStep_keep (b : VisionLabel) (s : ℚ) (x : VisionLabel)
    (h : x.score ≤ s) : labelStep (some b, s) x = (some b, s) := by
  have hns : ¬ s < x.score := not_lt.mpr h
  simp [labelStep, hns]

theorem foldl_labelStep_keep (b : VisionLabel) (s : ℚ) (ls : List VisionLabel)
    (h : ∀ x ∈ ls, x.score ≤ s) :
    ls.foldl labelStep (some b, s) = (some b, s) := by
  induction ls with
  | nil => rfl
  | cons a t ih =>
    rw [List.foldl_cons, labelStep_keep b s a (h a (List.mem_cons_self a t))]
    exact ih fun x hx => h x (List.mem_cons_of_mem a hx)

theorem ite_str_ne_empty {c : Prop} [Decidable c] {a b : String}
    (ha : a ≠ "") (hb : b ≠ "") : (if c then a else b) ≠ "" := by
  split
  · exact ha
  · exact hb

theorem pyJoinSpace_cons2_ne (a b : String) (t : List String) (ha : a ≠ "") :
    pyJoinSpace (a :: b :: t) ≠ "" := by
  show a ++ " " ++ pyJoinSpace (b :: t) ≠ ""
  exact str_append_ne_empty_left _ _ (str_append_ne_empty_left _ _ ha)

theorem campaignHeadline_ne (pi : ProductInfo) (md : MarketData) :
    campaignHeadline pi md ≠ "" := by
  have hbase : "Premium " ++ pi.condition.getD "Quality" ++ " " ++ pi.product ++
      " - Available Now!" ≠ "" := by
    apply str_append_ne_empty_left
    apply str_append_ne_empty_left
    apply str_append_ne_empty_left
    apply str_append_ne_empty_left
    decide
  unfold campaignHeadline
  exact ite_str_ne_empty (str_append_ne_empty_left _ _ hbase) hbase

theorem campaignBody_ne (pi : ProductInfo) (md : MarketData) :
    campaignBody pi md ≠ "" := by
  unfold campaignBody
  exact str_append_ne_empty_right _ _ (by decide)

theorem campaignCta_ne (pi : ProductInfo) (md : MarketData) :
    campaignCta pi md ≠ "" := by
  have hbase : "Order your " ++ pi.product ++
      " now! Call/WhatsApp [Your Phone Number/WhatsApp]." ≠ "" := by
    apply str_append_ne_empty_left
    apply str_append_ne_empty_left
    decide
  unfold campaignCta
  exact ite_str_ne_empty
    (str_append_ne_empty_left _ _ (str_append_ne_empty_left _ _
      (str_append_ne_empty_left _ _ hbase))) hbase

theorem campaignHashtags_ne (pi : ProductInfo) (md : MarketData) :
    campaignHashtags pi md ≠ "" := by
  unfold campaignHashtags
  simp only [List.cons_append, List.nil_append]
  exact pyJoinSpace_cons2_ne _ _ _ (by decide)

theorem filter_exact_nil (label : String) (df : List PriceRecord)
    (h : ∀ r ∈ df, pyLower r.productName ≠ pyLower label) :
    (df.filter fun r => pyLower r.productName == pyLower label) = [] := by
  induction df with
  | nil => rfl
  | cons a t ih =>
    have ha : (pyLower a.productName == pyLower label) = false := by
      simp only [beq_eq_false_iff_ne, ne_eq]
      exact h a (List.mem_cons_self a t)
    rw [List.filter_cons, ha]
    simp only [Bool.false_eq_true, if_false]
    exact ih fun r hr => h r (List.mem_cons_of_mem a hr)

theorem matchedRows_lower (label : String) (df : List PriceRecord) :
    matchedRows label df = matchedRows (pyLower label) df := by
  unfold matchedRows synonymPhase
  simp only [pyLower_idem, strContainsCI]

theorem selectByMarket_eq_spec (ps : List PriceRecord) :
    selectByMarket ps = selectByMarketSpec ps := by
  unfold selectByMarket selectByMarketSpec marketPriority selectPreferred
  cases h1 : ps.filter (fun r => strContainsCI r.marketName "Akure") with
  | cons r1 t1 => simp [h1]
  | nil =>
    cases h2 : ps.filter (fun r => strContainsCI r.marketName "Ibadan") with
    | cons r2 t2 => simp [selectPreferred, h1, h2]
    | nil =>
      cases h3 : ps.filter (fun r => strContainsCI r.marketName "Lagos") with
      | cons r3 t3 => simp [selectPreferred, h1, h2, h3]
      | nil => simp [selectPreferred, h1, h2, h3]

/-! ### Claim theorems -/

/-- C1 counterexample: as stated, the claim is false on the code.  The
synonym map explicitly maps "fruit" to null, yet with a literal "Fruit"
row in the table `fetch_market_price "fruit"` returns Found, not
TooGeneric: the exact-match step (source line 102) runs before the
synonym map is consulted (line 106). -/
theorem fruit_row_beats_null_synonym :
    PRODUCT_NAME_SYNONYM_MAP.lookup "fruit" = some none ∧
    fetch_market_price "fruit" (some [rowFruit]) =
      foundRes rowFruit MarketRole.primary 20250501 := by
  constructor
  · rfl
  · decide

/-- C1 amended: for every label the synonym map explicitly maps to null,
over a non-empty table with no exact case-insensitive match for the label,
`fetch_market_price` returns the "Product Too Generic" result, whatever
else the table contains (substring matches included). -/
theorem fetch_null_mapped_tooGeneric (label : String) (df : List PriceRecord)
    (hmap : PRODUCT_NAME_SYNONYM_MAP.lookup (pyLower label) = some none)
    (hdf : df ≠ [])
    (hnoexact : ∀ r ∈ df, pyLower r.productName ≠ pyLower label) :
    fetch_market_price label (some df) = tooGenericRes := by
  apply fetch_tooGeneric_of label df hdf (filter_exact_nil label df hnoexact)
  unfold synGet
  rw [hmap]

/-- Witness for the amended C1: `"fruit"` against a table with only a
"Goat meat" row yields the TooGeneric result. -/
theorem fetch_null_mapped_tooGeneric_w :
    fetch_market_price "fruit" (some [rowGoatMeat]) = tooGenericRes :=
  fetch_null_mapped_tooGeneric "fruit" [rowGoatMeat] (by decide) (by decide)
    (by decide)

/-- C2 counterexample: as stated, the claim is false on the code.  For a
label absent from both the table (as an exact match) and the synonym map,
`fetch_market_price` returns the TooGeneric result, not ProductNotFound:
`dict.get` returns `None` for a missing key exactly as for an explicit
null value, so line 116 fires.  The row's name even contains the label as
a substring, confirming the broad fallback did not run either. -/
theorem unmapped_label_tooGeneric_cex :
    PRODUCT_NAME_SYNONYM_MAP.lookup "goat" = none ∧
    strContainsCI rowGoatMeat.productName "goat" = true ∧
    fetch_market_price "goat" (some [rowGoatMeat]) = tooGenericRes := by
  refine ⟨rfl, ?_, ?_⟩
  · decide
  · decide

/-- C2 amended: for every label with no case-insensitive exact match in a
non-empty table and no entry at all in the synonym map,
`fetch_market_price` returns the TooGeneric result (the code cannot
distinguish unmapped from mapped-to-null), and in particular the broad
substring fallback over the full table is never reached for such a label. -/
theorem fetch_unmapped_tooGeneric (label : String) (df : List PriceRecord)
    (hmap : PRODUCT_NAME_SYNONYM_MAP.lookup (pyLower label) = none)
    (hdf : df ≠ [])
    (hnoexact : ∀ r ∈ df, pyLower r.productName ≠ pyLower label) :
    fetch_market_price label (some df) = tooGenericRes := by
  apply fetch_tooGeneric_of label df hdf (filter_exact_nil label df hnoexact)
  unfold synGet
  rw [hmap]

/-- Witness for the amended C2: the unmapped label "goat" against a
"Goat meat" row yields the TooGeneric result. -/
theorem fetch_unmapped_tooGeneric_w :
    fetch_market_price "goat" (some [rowGoatMeat]) = tooGenericRes :=
  fetch_unmapped_tooGeneric "goat" [rowGoatMeat] (by decide) (by decide)
    (by decide)

/-- C3: for every label occurring verbatim (case-insensitively) as a
product name in a non-empty table whose dates all parsed, the lookup
returns Found, and the returned price, unit and date are exactly those of
one of the exactly-matching rows — the row selected by latest-date and
market-priority selection. -/
theorem fetch_exact_label_found (label : String) (df : List PriceRecord)
    (hdates : ∀ r ∈ df, r.date ≠ none)
    (hmatch : ∃ r ∈ df, pyLower r.productName = pyLower label) :
    ∃ row role d,
      row ∈ df.filter (fun r => pyLower r.productName == pyLower label) ∧
      row.date = some d ∧
      dateMax ((df.filter fun r => pyLower r.productName == pyLower label).map
        fun r => r.date) = some d ∧
      selectByMarket ((df.filter fun r => pyLower r.productName == pyLower label).filter
        fun r => r.date == some d) = some (row, role) ∧
      fetch_market_price label (some df) = foundRes row role d := by
  obtain ⟨r, hr, hrl⟩ := hmatch
  have hrf : r ∈ df.filter (fun r => pyLower r.productName == pyLower label) := by
    rw [List.mem_filter]
    exact ⟨hr, by simp [hrl]⟩
  have hne : (df.filter fun r => pyLower r.productName == pyLower label) ≠ [] :=
    List.ne_nil_of_mem hrf
  have hm := matchedRows_exact label df hne
  obtain ⟨x, hx⟩ : ∃ x, r.date = some x := Option.ne_none_iff_exists'.mp (hdates r hr)
  obtain ⟨d, hd⟩ :
      ∃ d, dateMax ((df.filter fun r => pyLower r.productName == pyLower label).map
        fun r => r.date) = some d := by
    apply dateMax_isSome _ x
    rw [List.mem_map]
    exact ⟨r, hrf, hx⟩
  obtain ⟨row, role, hrowmem, hrowdate, hsel, hbody⟩ :=
    lookupBody_found_of label df _ d hm hd
  exact ⟨row, role, d, hrowmem, hrowdate, hd, hsel,
    fetch_ok label df _ (List.ne_nil_of_mem hr) hbody⟩

/-- Witness for C3 at the label "Tomatoes" (capitalised, matching the
rows case-insensitively) over the two-row tomato table. -/
theorem fetch_exact_label_found_w :
    ∃ row role d,
      row ∈ [rowTomatoesShasha, rowTomatoesErekesan].filter
        (fun r => pyLower r.productName == pyLower "Tomatoes") ∧
      row.date = some d ∧
      dateMax (([rowTomatoesShasha, rowTomatoesErekesan].filter
        fun r => pyLower r.productName == pyLower "Tomatoes").map
        fun r => r.date) = some d ∧
      selectByMarket (([rowTomatoesShasha, rowTomatoesErekesan].filter
        fun r => pyLower r.productName == pyLower "Tomatoes").filter
        fun r => r.date == some d) = some (row, role) ∧
      fetch_market_price "Tomatoes" (some [rowTomatoesShasha, rowTomatoesErekesan]) =
        foundRes row role d :=
  fetch_exact_label_found "Tomatoes" [rowTomatoesShasha, rowTomatoesErekesan]
    (by decide) (by decide)

/-- C4: whenever `fetch_market_price` returns Found, the returned record
comes from a matched row whose observation date equals the maximum date
among all matched rows; and in the spec's scenario (Shasha 2025-05-01 at
3000 vs Erekesan 2025-05-10 at 2800), looking up "tomatoes" returns the
2025-05-10 Erekesan row. -/
theorem fetch_found_latest_date :
    (∀ label df, (fetch_market_price label (some df)).status = LookupStatus.found →
      ∃ ps row role d, matchedRows label df = some ps ∧ row ∈ ps ∧
        row.date = some d ∧ dateMax (ps.map fun r => r.date) = some d ∧
        fetch_market_price label (some df) = foundRes row role d) ∧
    fetch_market_price "tomatoes" (some [rowTomatoesShasha, rowTomatoesErekesan]) =
      foundRes rowTomatoesErekesan MarketRole.generalFallback 20250510 :=
  ⟨fetch_found_inv, by decide⟩

/-- Witness for C4's general part at the spec's tomato scenario. -/
theorem fetch_found_latest_date_w :
    ∃ ps row role d,
      matchedRows "tomatoes" [rowTomatoesShasha, rowTomatoesErekesan] = some ps ∧
      row ∈ ps ∧ row.date = some d ∧ dateMax (ps.map fun r => r.date) = some d ∧
      fetch_market_price "tomatoes" (some [rowTomatoesShasha, rowTomatoesErekesan]) =
        foundRes row role d :=
  fetch_found_latest_date.1 "tomatoes" [rowTomatoesShasha, rowTomatoesErekesan]
    (by decide)

/-- C5: within the latest-date slice, the selection walks the preferred
markets Akure, Ibadan, Lagos in order, returns the first row (in original
table order) whose market name contains the preferred name
case-insensitively, tagged primary for Akure and fallback otherwise, and
otherwise the first row of the slice tagged as general fallback — i.e.
`selectByMarket` coincides with the spec-side `selectByMarketSpec` on
every input.  In particular, with same-product same-date rows in Lagos
and Akure markets (Lagos listed first), the Akure row is chosen and
tagged primary. -/
theorem selectByMarket_spec_conform :
    (∀ ps, selectByMarket ps = selectByMarketSpec ps) ∧
    fetch_market_price "tomatoes" (some [rowTomatoesLagos, rowTomatoesAkure]) =
      foundRes rowTomatoesAkure MarketRole.primary 20250510 :=
  ⟨selectByMarket_eq_spec, by decide⟩

/-- C6: a missing table (failed/malformed load) or an empty table both
produce the "WB Data Unavailable" result, for every label; the function
is total, so nothing escapes to the caller. -/
theorem fetch_unavailable_table (label : String) :
    fetch_market_price label none = dataUnavailableRes ∧
    fetch_market_price label (some []) = dataUnavailableRes :=
  ⟨rfl, rfl⟩

/-- C7: `fetch_market_price` is total and every result carries one of the
five spec statuses (Found, ProductNotFound, TooGeneric, DataUnavailable,
Error) — the residual "Market Not Found for Date" return of source line
144 is unreachable — and whenever the lookup body raises (e.g. `strftime`
on a `NaT` latest date), the caller sees the Error result instead of an
exception. -/
theorem fetch_status_total (label : String) (df? : Option (List PriceRecord)) :
    ((fetch_market_price label df?).status = LookupStatus.dataUnavailable ∨
     (fetch_market_price label df?).status = LookupStatus.tooGeneric ∨
     (fetch_market_price label df?).status = LookupStatus.productNotFound ∨
     (fetch_market_price label df?).status = LookupStatus.found ∨
     (fetch_market_price label df?).status = LookupStatus.error) ∧
    (∀ df e, df? = some df → df ≠ [] → lookupBody label df = Except.error e →
      (fetch_market_price label df?).status = LookupStatus.error) := by
  constructor
  · cases df? with
    | none => left; rfl
    | some df =>
      by_cases hdf : df.isEmpty = true
      · left
        have hu : fetch_market_price label (some df) = dataUnavailableRes := by
          show (if df.isEmpty = true then dataUnavailableRes
                else match lookupBody label df with
                  | Except.ok v => v
                  | Except.error _ => lookupErrorRes) = dataUnavailableRes
          rw [if_pos hdf]
        rw [hu]
        rfl
      · have hdf' : df ≠ [] := fun hnil => hdf (by rw [hnil]; rfl)
        cases hlb : lookupBody label df with
        | error e =>
          right; right; right; right
          have herr : fetch_market_price label (some df) = lookupErrorRes := by
            show (if df.isEmpty = true then dataUnavailableRes
                  else match lookupBody label df with
                    | Except.ok v => v
                    | Except.error _ => lookupErrorRes) = lookupErrorRes
            rw [if_neg hdf, hlb]
          rw [herr]
          rfl
        | ok r =>
          rw [fetch_ok label df r hdf' hlb]
          rcases lookupBody_ok_status label df r hlb with h | h | h
          · right; left; exact h
          · right; right; left; exact h
          · right; right; right; left; exact h
  · intro df e hdf? hne hlb
    subst hdf?
    have herr : fetch_market_price label (some df) = lookupErrorRes := by
      show (if df.isEmpty = true then dataUnavailableRes
            else match lookupBody label df with
              | Except.ok v => v
              | Except.error _ => lookupErrorRes) = lookupErrorRes
      rw [if_neg (by simp [isEmpty_false_of_ne_nil hne]), hlb]
    rw [herr]
    rfl

/-- Witness for C7: a tomato row whose date never parsed makes the body
raise at `strftime`, and the caller sees status Error. -/
theorem fetch_status_total_w :
    (fetch_market_price "tomatoes" (some [rowTomatoesNoDate])).status =
      LookupStatus.error :=
  (fetch_status_total "tomatoes" (some [rowTomatoesNoDate])).2
    [rowTomatoesNoDate] () rfl (by decide) rfl

/-- C8 counterexample: as stated, the claim is false on the code.  The
label is lowercased but never trimmed: prefixing whitespace to
"tomatoes" flips the result from Found to TooGeneric, so lookup is not
invariant under leading/trailing-whitespace changes. -/
theorem fetch_whitespace_sensitive :
    (" tomatoes" : String) = " " ++ "tomatoes" ∧
    (fetch_market_price " tomatoes" (some [rowTomatoesShasha])).status =
      LookupStatus.tooGeneric ∧
    (fetch_market_price "tomatoes" (some [rowTomatoesShasha])).status =
      LookupStatus.found := by
  refine ⟨rfl, ?_, ?_⟩
  · decide
  · decide

/-- C8 amended: `fetch_market_price` normalizes the label by lowercasing
only — its result is invariant under changes of letter case (applying it
to the lowercased label gives the identical result), but not under
trimming of surrounding whitespace. -/
theorem fetch_lower_invariant (label : String) (df? : Option (List PriceRecord)) :
    fetch_market_price label df? = fetch_market_price (pyLower label) df? := by
  cases df? with
  | none => rfl
  | some df =>
    have hb : lookupBody label df = lookupBody (pyLower label) df := by
      unfold lookupBody
      rw [matchedRows_lower]
    show (if df.isEmpty = true then dataUnavailableRes
          else match lookupBody label df with
            | Except.ok v => v
            | Except.error _ => lookupErrorRes) =
         (if df.isEmpty = true then dataUnavailableRes
          else match lookupBody (pyLower label) df with
            | Except.ok v => v
            | Except.error _ => lookupErrorRes)
    rw [hb]

/-- C9 counterexample: as stated, the claim is false on the code.  "Car"
(confidence 0.9) matches no plausibility keyword while "Tomato"
(confidence 0.5) does, yet with "Car" listed first the loop selects
"Car"; with the order swapped it selects "Tomato" — so the highest-confidence
plausibility-matching label is not selected, and the outcome depends on
the input order. -/
theorem select_best_label_order_dependent :
    isPlausible carLabel = false ∧ isPlausible tomatoLabel = true ∧
    tomatoLabel.score < carLabel.score ∧
    select_best_label [carLabel, tomatoLabel] = some carLabel ∧
    select_best_label [tomatoLabel, carLabel] = some tomatoLabel := by
  refine ⟨?_, ?_, ?_, ?_, ?_⟩ <;> decide

/-- C9 amended: the loop keeps one running maximum shared by both
branches, so a label only ever replaces the current best with a strictly
higher score, and non-plausible labels are eligible only while no label
is selected.  Hence when the labels arrive ranked by non-increasing
confidence with a positive top score — the order the collaborator
returns them in — the first label is selected, regardless of
plausibility. -/
theorem select_best_label_ranked (l : VisionLabel) (ls : List VisionLabel)
    (hpos : 0 < l.score) (hranked : ∀ x ∈ ls, x.score ≤ l.score) :
    select_best_label (l :: ls) = some l := by
  unfold select_best_label
  rw [List.foldl_cons, labelStep_start l hpos,
    foldl_labelStep_keep l l.score ls hranked]

/-- Witness for the amended C9: the ranked pair ("Car" 0.9, "Tomato" 0.5)
selects "Car". -/
theorem select_best_label_ranked_w :
    select_best_label [carLabel, tomatoLabel] = some carLabel :=
  select_best_label_ranked carLabel [tomatoLabel] (by decide) (by decide)

/-- C10: with a truthy `product` field, `generate_campaign_content`
returns a record with exactly the four keys headline/body/cta/hashtags,
each non-empty; with `product_info` None or a falsy `product`, the body
assignment on source line 153 reads never-bound names and the call raises
`NameError` instead of returning. -/
theorem generate_campaign_content_total (p : Option ProductInfo) (md : MarketData) :
    (hasTruthyProduct p = true →
      ∃ c : CampaignCopy, generate_campaign_content p md = Except.ok c ∧
        c.headline ≠ "" ∧ c.body ≠ "" ∧ c.cta ≠ "" ∧ c.hashtags ≠ "") ∧
    (hasTruthyProduct p = false →
      generate_campaign_content p md = Except.error PyError.nameError) := by
  constructor
  · intro ht
    cases p with
    | none => simp [hasTruthyProduct] at ht
    | some pi =>
      have hne : ¬ pi.product = "" := by
        simp only [hasTruthyProduct, Bool.not_eq_true', decide_eq_false_iff_not] at ht
        exact ht
      refine ⟨⟨campaignHeadline pi md, campaignBody pi md, campaignCta pi md,
        campaignHashtags pi md⟩, ?_, campaignHeadline_ne pi md, campaignBody_ne pi md,
        campaignCta_ne pi md, campaignHashtags_ne pi md⟩
      show (if pi.product = "" then (Except.error PyError.nameError : Except PyError CampaignCopy)
            else Except.ok { headline := campaignHeadline pi md,
                             body := campaignBody pi md,
                             cta := campaignCta pi md,
                             hashtags := campaignHashtags pi md }) =
        Except.ok (⟨campaignHeadline pi md, campaignBody pi md, campaignCta pi md,
          campaignHashtags pi md⟩ : CampaignCopy)
      rw [if_neg hne]
  · intro hf
    cases p with
    | none => rfl
    | some pi =>
      have he : pi.product = "" := by
        simp only [hasTruthyProduct, Bool.not_eq_false', decide_eq_true_eq] at hf
        exact hf
      show (if pi.product = "" then (Except.error PyError.nameError : Except PyError CampaignCopy)
            else Except.ok { headline := campaignHeadline pi md,
                             body := campaignBody pi md,
                             cta := campaignCta pi md,
                             hashtags := campaignHashtags pi md }) =
        Except.error PyError.nameError
      rw [if_pos he]

/-- Witness for C10: a "Yam" product with a market location and trend
gives a full four-field record; a missing `product_info` raises. -/
theorem generate_campaign_content_total_w :
    (∃ c : CampaignCopy,
      generate_campaign_content (some ⟨"Yam", none⟩)
        ⟨some "Shasha Market", some "up"⟩ = Except.ok c ∧
      c.headline ≠ "" ∧ c.body ≠ "" ∧ c.cta ≠ "" ∧ c.hashtags ≠ "") ∧
    generate_campaign_content none ⟨none, none⟩ = Except.error PyError.nameError :=
  ⟨(generate_campaign_content_total (some ⟨"Yam", none⟩)
      ⟨some "Shasha Market", some "up"⟩).1 rfl,
   (generate_campaign_content_total none ⟨none, none⟩).2 rfl⟩
